import Mathlib

/-
Formal model of the `status` Django app of rialtas_status: its data model
(src/status/models.py), status resolution (src/status/views.py), API key
authentication (src/status/api_auth.py) and API endpoints (src/status/api.py),
together with theorems checking the natural-language specification against
this model.

Modelling conventions:
  * timestamps (`created_at`, `last_used_at`) are natural numbers;
  * a `User` foreign key is represented by the username the code reads from it;
  * a database table is a list of rows in insertion order;
  * Django's `order_by('-created_at')` is modelled as a stable sort descending
    by `created_at` (ties keep natural storage order, i.e. insertion order);
  * Python exceptions surfaced by the code paths (`Http404` from
    `get_object_or_404`, `HttpError` from ninja, `TypeError` from unexpected
    model kwargs, `AttributeError` from a missing attribute, `ValueError` from
    negative queryset slicing) are values of an `ApiError` sum type.
-/

namespace RialtasStatus

/-- A row of the `Service` model (src/status/models.py, class `Service`):
fields `name`, `description`, `order`, `is_active`, `created_at` plus the
implicit primary key `id`. -/
structure Service where
  id : Nat
  name : String
  description : String
  order : Int
  is_active : Bool
  created_at : Nat
deriving DecidableEq, Repr

/-- A row of the `StatusUpdate` model (src/status/models.py, class
`StatusUpdate`): fields `service` (foreign key, kept as `service_id`),
`status`, `problem`, `plan`, `created_at`, `created_by` (nullable user foreign
key, kept as the username) plus the implicit primary key `id`.  Note the model
declares `problem` and `plan` but no `comments` field. -/
structure StatusUpdate where
  id : Nat
  service_id : Nat
  status : String
  problem : String
  plan : String
  created_at : Nat
  created_by : Option String
deriving DecidableEq, Repr

/-- The concrete field names of the `StatusUpdate` model
(src/status/models.py lines 30-46): the implicit `id` plus the five declared
fields.  Django raises `TypeError` when `StatusUpdate(**kwargs)` receives a
keyword that is not in this list, and `AttributeError` when an instance
attribute outside this list is read. -/
def statusUpdateFieldNames : List String :=
  ["id", "service", "status", "problem", "plan", "created_at", "created_by"]

/-- The `STATUS_CHOICES` list from src/status/models.py lines 33-39. -/
def STATUS_CHOICES : List (String × String) :=
  [("stable", "Stable"),
   ("degraded", "Degraded Performance"),
   ("partial", "Partial Outage"),
   ("down", "Major Outage"),
   ("maintenance", "Maintenance")]

/-- The valid status codes, as computed in src/status/api.py line 84:
`[choice[0] for choice in StatusUpdate.STATUS_CHOICES]`. -/
def valid_statuses : List String := STATUS_CHOICES.map Prod.fst

/-- Django's `get_status_display()`: the label paired with the stored code in
`STATUS_CHOICES`, or the raw value when the code is not a declared choice. -/
def get_status_display (s : String) : String :=
  ((STATUS_CHOICES.find? (fun c => c.1 == s)).map Prod.snd).getD s

/-- One insertion step of the stable descending sort by `created_at`:
`u` is placed after every already-sorted element strictly more recent than it
and before the rest, so earlier-inserted rows stay first among ties. -/
def insertByCreatedAtDesc (u : StatusUpdate) : List StatusUpdate → List StatusUpdate
  | [] => [u]
  | v :: vs =>
    if u.created_at < v.created_at then v :: insertByCreatedAtDesc u vs
    else u :: v :: vs

/-- Embedding of the queryset `order_by('-created_at')` used by
`Service.get_current_status`, `Service.get_recent_updates` and the
`Meta.ordering = ['-created_at']` of `StatusUpdate`: a stable sort, most
recent first, ties kept in natural storage (insertion) order. -/
def order_by_created_at_desc : List StatusUpdate → List StatusUpdate
  | [] => []
  | u :: us => insertByCreatedAtDesc u (order_by_created_at_desc us)

/-- Embedding of `Service.get_current_status` (src/status/models.py lines
21-23): `self.status_updates.order_by('-created_at').first()`, over the list
of the service's updates in insertion order. -/
def get_current_status (updates : List StatusUpdate) : Option StatusUpdate :=
  (order_by_created_at_desc updates).head?

/-- Embedding of `Service.get_recent_updates` (src/status/models.py lines
25-27): `self.status_updates.order_by('-created_at')[:limit]`. -/
def get_recent_updates (updates : List StatusUpdate) (limit : Nat := 5) :
    List StatusUpdate :=
  (order_by_created_at_desc updates).take limit

lemma head?_insertByCreatedAtDesc (u v : StatusUpdate) (vs : List StatusUpdate) :
    (insertByCreatedAtDesc u (v :: vs)).head? =
      if u.created_at < v.created_at then some v else some u := by
  by_cases h : u.created_at < v.created_at <;> simp [insertByCreatedAtDesc, h]

/-- Head of the stable descending sort of a nonempty list: it is an element
`r` of the list such that everything inserted before `r` is strictly older and
everything inserted after `r` is no more recent — i.e. the first-inserted
element among those with maximal `created_at`. -/
lemma sort_head_decomp :
    ∀ (l : List StatusUpdate) (u : StatusUpdate),
      ∃ r l₁ l₂,
        (order_by_created_at_desc (u :: l)).head? = some r ∧
        u :: l = l₁ ++ r :: l₂ ∧
        (∀ v ∈ l₁, v.created_at < r.created_at) ∧
        (∀ v ∈ l₂, v.created_at ≤ r.created_at) := by
  intro l
  induction l with
  | nil =>
    intro u
    exact ⟨u, [], [], rfl, rfl, by simp, by simp⟩
  | cons a t ih =>
    intro u
    obtain ⟨r', l₁, l₂, hhead, hdec, hlt, hle⟩ := ih a
    -- the sorted tail is nonempty with head r'
    obtain ⟨rest, hrest⟩ : ∃ rest,
        order_by_created_at_desc (a :: t) = r' :: rest := by
      cases hsort : order_by_created_at_desc (a :: t) with
      | nil => rw [hsort] at hhead; simp at hhead
      | cons x xs =>
        rw [hsort] at hhead
        simp at hhead
        exact ⟨xs, by rw [hhead]⟩
    have hins : order_by_created_at_desc (u :: a :: t) =
        insertByCreatedAtDesc u (r' :: rest) := by
      show insertByCreatedAtDesc u (order_by_created_at_desc (a :: t)) = _
      rw [hrest]
    by_cases hcmp : u.created_at < r'.created_at
    · refine ⟨r', u :: l₁, l₂, ?_, ?_, ?_, hle⟩
      · rw [hins, head?_insertByCreatedAtDesc, if_pos hcmp]
      · simpa using congrArg (u :: ·) hdec
      · intro v hv
        rcases List.mem_cons.mp hv with h | h
        · subst h; exact hcmp
        · exact hlt v h
    · push_neg at hcmp
      refine ⟨u, [], a :: t, ?_, rfl, by simp, ?_⟩
      · rw [hins, head?_insertByCreatedAtDesc, if_neg (by omega)]
      · intro v hv
        have hv' : v ∈ l₁ ++ r' :: l₂ := by rw [← hdec]; exact hv
        rcases List.mem_append.mp hv' with h | h
        · exact le_trans (le_of_lt (hlt v h)) hcmp
        · rcases List.mem_cons.mp h with h | h
          · subst h; exact hcmp
          · exact le_trans (hle v h) hcmp

/-- C3: `get_current_status` returns `none` on a service with zero status
updates, and on a service with a nonempty insertion-ordered list of updates it
returns the update with the latest `created_at`, ties among equal `created_at`
values broken by insertion order (the first-inserted among the most recent
wins, matching the stable natural storage order behind
`order_by('-created_at').first()`). -/
theorem get_current_status_spec :
    get_current_status [] = none ∧
    ∀ (u : StatusUpdate) (l : List StatusUpdate),
      ∃ r l₁ l₂,
        get_current_status (u :: l) = some r ∧
        u :: l = l₁ ++ r :: l₂ ∧
        (∀ v ∈ l₁, v.created_at < r.created_at) ∧
        (∀ v ∈ l₂, v.created_at ≤ r.created_at) := by
  refine ⟨rfl, ?_⟩
  intro u l
  exact sort_head_decomp l u

/-- The database: the `services` and `status_updates` tables as lists of rows
in insertion order. -/
structure Db where
  services : List Service
  status_updates : List StatusUpdate
deriving DecidableEq, Repr

/-- The updates belonging to one service (`service.status_updates` reverse
relation), in insertion order. -/
def service_updates (db : Db) (sid : Nat) : List StatusUpdate :=
  db.status_updates.filter (fun u => u.service_id == sid)

/-- One iteration of the overall-status aggregation loop of `status_page`
(src/status/views.py lines 24-31): the `if`/`elif` chain that upgrades the
running `overall_status` from a service's current status. -/
def step (overall : String) (status : String) : String :=
  if status == "down" then "down"
  else if status == "partial" && !(overall == "down") then "partial"
  else if status == "degraded" && !(overall == "down" || overall == "partial")
    then "degraded"
  else if status == "maintenance" && overall == "stable" then "maintenance"
  else overall

/-- The overall status computed by `status_page` (src/status/views.py lines
11-32): iterate over the active services, and for each one that has a current
status, feed it to `step`; a service with no current status leaves the
aggregate unchanged.  The starting value is `'stable'`. -/
def overall_status (db : Db) : String :=
  (db.services.filter (fun s => s.is_active)).foldl
    (fun overall s =>
      match get_current_status (service_updates db s.id) with
      | none => overall
      | some u => step overall u.status)
    "stable"

/-- The multiset of current statuses of the active services, in service
iteration order (services with no current status dropped). -/
def current_statuses (db : Db) : List String :=
  (db.services.filter (fun s => s.is_active)).filterMap
    (fun s => (get_current_status (service_updates db s.id)).map StatusUpdate.status)

/-- Severity rank of a status code under the fixed order
`down > partial > degraded > maintenance > stable`. -/
def sev (s : String) : Nat :=
  if s == "down" then 4
  else if s == "partial" then 3
  else if s == "degraded" then 2
  else if s == "maintenance" then 1
  else 0

/-- Keep the more severe of an aggregate and a new status, replacing the
aggregate only on strictly higher severity. -/
def maxSt (m s : String) : String :=
  if sev m < sev s then s else m

lemma step_eq_maxSt :
    ∀ m ∈ valid_statuses, ∀ s ∈ valid_statuses, step m s = maxSt m s := by
  intro m hm s hs
  have hm' : m = "stable" ∨ m = "degraded" ∨ m = "partial" ∨ m = "down" ∨
      m = "maintenance" := by
    simpa [valid_statuses, STATUS_CHOICES] using hm
  have hs' : s = "stable" ∨ s = "degraded" ∨ s = "partial" ∨ s = "down" ∨
      s = "maintenance" := by
    simpa [valid_statuses, STATUS_CHOICES] using hs
  rcases hm' with rfl | rfl | rfl | rfl | rfl <;>
    rcases hs' with rfl | rfl | rfl | rfl | rfl <;> decide

lemma step_mem_valid (m s : String) (hm : m ∈ valid_statuses) :
    step m s ∈ valid_statuses := by
  unfold step
  split
  · decide
  · split
    · decide
    · split
      · decide
      · split
        · decide
        · exact hm

lemma maxSt_mem (m s : String) : maxSt m s = m ∨ maxSt m s = s := by
  unfold maxSt; split
  · exact Or.inr rfl
  · exact Or.inl rfl

lemma sev_maxSt (m s : String) : sev (maxSt m s) = Nat.max (sev m) (sev s) := by
  unfold maxSt
  split
  · next h => exact (Nat.max_eq_right (le_of_lt h)).symm
  · next h => exact (Nat.max_eq_left (Nat.le_of_not_lt h)).symm

lemma sev_foldl_maxSt :
    ∀ (ss : List String) (m : String),
      sev (List.foldl maxSt m ss) =
        List.foldl (fun a s => Nat.max a (sev s)) (sev m) ss := by
  intro ss
  induction ss with
  | nil => intro m; rfl
  | cons s t ih =>
    intro m
    simp only [List.foldl_cons]
    rw [ih (maxSt m s), sev_maxSt]

lemma foldl_maxSt_mem :
    ∀ (ss : List String) (m : String), List.foldl maxSt m ss ∈ m :: ss := by
  intro ss
  induction ss with
  | nil => intro m; simp
  | cons s t ih =>
    intro m
    simp only [List.foldl_cons]
    have h := ih (maxSt m s)
    rcases List.mem_cons.mp h with h | h
    · rcases maxSt_mem m s with h' | h'
      · rw [h, h']; simp
      · rw [h, h']; simp
    · simp [h]

lemma foldl_maxSt_valid (ss : List String) (m : String)
    (hm : m ∈ valid_statuses) (hss : ∀ s ∈ ss, s ∈ valid_statuses) :
    List.foldl maxSt m ss ∈ valid_statuses := by
  rcases List.mem_cons.mp (foldl_maxSt_mem ss m) with h | h
  · rw [h]; exact hm
  · exact hss _ h

lemma foldl_step_eq_foldl_maxSt :
    ∀ (ss : List String) (m : String), m ∈ valid_statuses →
      (∀ s ∈ ss, s ∈ valid_statuses) →
      List.foldl step m ss = List.foldl maxSt m ss := by
  intro ss
  induction ss with
  | nil => intro m _ _; rfl
  | cons s t ih =>
    intro m hm hst
    have hs : s ∈ valid_statuses := hst s (by simp)
    have ht : ∀ x ∈ t, x ∈ valid_statuses := fun x hx => hst x (by simp [hx])
    simp only [List.foldl_cons]
    rw [step_eq_maxSt m hm s hs]
    have hmax : maxSt m s ∈ valid_statuses := by
      rcases maxSt_mem m s with h | h
      · rw [h]; exact hm
      · rw [h]; exact hs
    exact ih (maxSt m s) hmax ht

lemma foldl_natmax_perm {l₁ l₂ : List String} (p : l₁.Perm l₂) :
    ∀ a, List.foldl (fun a s => Nat.max a (sev s)) a l₁ =
      List.foldl (fun a s => Nat.max a (sev s)) a l₂ := by
  induction p with
  | nil => intro a; rfl
  | cons x _ ih =>
    intro a
    simp only [List.foldl_cons]
    exact ih _
  | swap x y l =>
    intro a
    simp only [List.foldl_cons]
    have h : Nat.max (Nat.max a (sev y)) (sev x) =
        Nat.max (Nat.max a (sev x)) (sev y) := by
      simp only [Nat.max_def]
      split_ifs <;> omega
    rw [h]
  | trans _ _ ih₁ ih₂ =>
    intro a
    rw [ih₁ a, ih₂ a]

lemma sev_inj_on_valid :
    ∀ a ∈ valid_statuses, ∀ b ∈ valid_statuses, sev a = sev b → a = b := by
  intro a ha b hb
  have ha' : a = "stable" ∨ a = "degraded" ∨ a = "partial" ∨ a = "down" ∨
      a = "maintenance" := by
    simpa [valid_statuses, STATUS_CHOICES] using ha
  have hb' : b = "stable" ∨ b = "degraded" ∨ b = "partial" ∨ b = "down" ∨
      b = "maintenance" := by
    simpa [valid_statuses, STATUS_CHOICES] using hb
  rcases ha' with rfl | rfl | rfl | rfl | rfl <;>
    rcases hb' with rfl | rfl | rfl | rfl | rfl <;> decide

lemma overall_aux (db : Db) :
    ∀ (l : List Service) (init : String),
      List.foldl (fun overall s =>
        match get_current_status (service_updates db s.id) with
        | none => overall
        | some u => step overall u.status) init l =
      List.foldl step init
        (l.filterMap (fun s =>
          (get_current_status (service_updates db s.id)).map StatusUpdate.status)) := by
  intro l
  induction l with
  | nil => intro init; rfl
  | cons a t ih =>
    intro init
    simp only [List.foldl_cons, List.filterMap_cons]
    cases h : get_current_status (service_updates db a.id) with
    | none => simp [h, ih]
    | some u => simp [h, ih, List.foldl_cons]

lemma overall_status_eq_fold (db : Db) :
    overall_status db = List.foldl step "stable" (current_statuses db) := by
  unfold overall_status current_statuses
  exact overall_aux db _ "stable"

lemma get_current_status_mem {l : List StatusUpdate} {r : StatusUpdate}
    (h : get_current_status l = some r) : r ∈ l := by
  cases l with
  | nil => simp [get_current_status, order_by_created_at_desc] at h
  | cons u t =>
    obtain ⟨r', l₁, l₂, hhead, hdec, _, _⟩ := sort_head_decomp t u
    rw [get_current_status] at h
    rw [hhead] at h
    have : r' = r := by simpa using h
    subst this
    rw [hdec]
    simp

lemma current_statuses_valid (db : Db)
    (hvalid : ∀ u ∈ db.status_updates, u.status ∈ valid_statuses) :
    ∀ s ∈ current_statuses db, s ∈ valid_statuses := by
  intro s hs
  unfold current_statuses at hs
  obtain ⟨svc, _, hmap⟩ := List.mem_filterMap.mp hs
  cases h : get_current_status (service_updates db svc.id) with
  | none => rw [h] at hmap; simp at hmap
  | some r =>
    rw [h] at hmap
    simp at hmap
    have hr : r ∈ service_updates db svc.id := get_current_status_mem h
    have hr' : r ∈ db.status_updates := List.mem_of_mem_filter hr
    rw [← hmap]
    exact hvalid r hr'

lemma stable_valid : "stable" ∈ valid_statuses := by decide

/-- C2: the overall status of `status_page` starts from `stable` and upgrades
per the fixed severity order `down > partial > degraded > maintenance >
stable`, replacing the aggregate only when the new status is strictly more
severe (`step` coincides with the strict max-by-severity on valid statuses);
services with no current status are skipped; the result is the max-by-severity
fold over the current statuses present (so `stable` when none is present) and
is one of those statuses or `stable`; and it is invariant under permuting the
order in which services are iterated. -/
theorem overall_status_spec (db : Db)
    (hvalid : ∀ u ∈ db.status_updates, u.status ∈ valid_statuses) :
    (∀ m ∈ valid_statuses, ∀ s ∈ valid_statuses,
        step m s = if sev m < sev s then s else m) ∧
    overall_status db = List.foldl step "stable" (current_statuses db) ∧
    overall_status db =
      List.foldl (fun m s => if sev m < sev s then s else m) "stable"
        (current_statuses db) ∧
    overall_status db ∈ "stable" :: current_statuses db ∧
    ∀ services' : List Service, db.services.Perm services' →
      overall_status db = overall_status { db with services := services' } := by
  have hcs := current_statuses_valid db hvalid
  have hfold := overall_status_eq_fold db
  have hmax : overall_status db = List.foldl maxSt "stable" (current_statuses db) := by
    rw [hfold]
    exact foldl_step_eq_foldl_maxSt _ _ stable_valid hcs
  refine ⟨fun m hm s hs => step_eq_maxSt m hm s hs, hfold, hmax, ?_, ?_⟩
  · rw [hmax]
    exact foldl_maxSt_mem _ _
  · intro services' hperm
    set db' : Db := { db with services := services' }
    have hcs' : ∀ s ∈ current_statuses db', s ∈ valid_statuses :=
      current_statuses_valid db' hvalid
    have hmax' : overall_status db' =
        List.foldl maxSt "stable" (current_statuses db') := by
      rw [overall_status_eq_fold db']
      exact foldl_step_eq_foldl_maxSt _ _ stable_valid hcs'
    have hpermcs : (current_statuses db).Perm (current_statuses db') := by
      unfold current_statuses
      have h1 : (db.services.filter (fun s => s.is_active)).Perm
          (db'.services.filter (fun s => s.is_active)) := hperm.filter _
      exact h1.filterMap _
    have hsev : sev (overall_status db) = sev (overall_status db') := by
      rw [hmax, hmax', sev_foldl_maxSt, sev_foldl_maxSt]
      exact foldl_natmax_perm hpermcs _
    have hv1 : overall_status db ∈ valid_statuses := by
      rw [hmax]; exact foldl_maxSt_valid _ _ stable_valid hcs
    have hv2 : overall_status db' ∈ valid_statuses := by
      rw [hmax']; exact foldl_maxSt_valid _ _ stable_valid hcs'
    exact sev_inj_on_valid _ hv1 _ hv2 hsev

/-- Example service 1 (active) for concrete evaluations. -/
def exSvc1 : Service :=
  { id := 1, name := "Service 1", description := "First service", order := 1,
    is_active := true, created_at := 0 }

/-- Example service 2 (active) for concrete evaluations. -/
def exSvc2 : Service :=
  { id := 2, name := "Service 2", description := "Second service", order := 2,
    is_active := true, created_at := 0 }

/-- Example update: service 1 is down. -/
def exUpd1 : StatusUpdate :=
  { id := 1, service_id := 1, status := "down", problem := "db lost",
    plan := "restart", created_at := 10, created_by := none }

/-- Example update: service 2 is stable. -/
def exUpd2 : StatusUpdate :=
  { id := 2, service_id := 2, status := "stable", problem := "",
    plan := "", created_at := 11, created_by := some "alice" }

/-- Example database with two active services and one update each. -/
def exDb2 : Db :=
  { services := [exSvc1, exSvc2], status_updates := [exUpd1, exUpd2] }

/-- Witness for C2 at a concrete database: iterating the two services in the
opposite order yields the same overall status. -/
theorem overall_status_spec_witness :
    overall_status exDb2 = overall_status { exDb2 with services := [exSvc2, exSvc1] } :=
  (overall_status_spec exDb2 (by decide)).2.2.2.2 [exSvc2, exSvc1]
    (List.Perm.swap exSvc2 exSvc1 [])

/-- A row of the `APIKey` model.  Modelled from the spec: the `APIKey` Django
model class is imported by src/status/api_auth.py, src/status/admin.py and
src/status/test_api.py from `status.models`, but its class definition is
absent from src/status/models.py; its fields follow spec section 3 (`id`,
`name`, `key`, `is_active`, `created_at`, nullable `last_used_at`,
`created_by` kept as the creating admin's username). -/
structure APIKey where
  id : Nat
  name : String
  key : String
  is_active : Bool
  created_at : Nat
  last_used_at : Option Nat
  created_by : Option String
deriving DecidableEq, Repr

/-- Embedding of `APIKeyAuth.authenticate` (src/status/api_auth.py lines
15-27): `APIKey.objects.get(key=token, is_active=True)` — an exact-match
lookup on the `key` field conjoined with `is_active = True` (the `key` column
is unique, so at most one row matches) — then `last_used_at = timezone.now()`
saved with `update_fields=['last_used_at']`, returning the key; on
`APIKey.DoesNotExist` it returns `None`.  The function returns the
authentication result together with the table after the call. -/
def authenticate (now : Nat) (token : String) :
    List APIKey → Option APIKey × List APIKey
  | [] => (none, [])
  | k :: ks =>
    if k.key == token && k.is_active then
      let k' := { k with last_used_at := some now }
      (some k', k' :: ks)
    else
      let r := authenticate now token ks
      (r.1, k :: r.2)

lemma authenticate_isSome :
    ∀ (keys : List APIKey) (token : String) (now : Nat),
      (authenticate now token keys).1.isSome ↔
        ∃ k ∈ keys, k.key = token ∧ k.is_active = true := by
  intro keys token now
  induction keys with
  | nil => simp [authenticate]
  | cons k ks ih =>
    by_cases h : k.key == token && k.is_active
    · have h' : k.key = token ∧ k.is_active = true := by simpa using h
      simp only [authenticate]
      rw [if_pos h]
      simp only [Option.isSome_some, true_iff]
      exact ⟨k, by simp, h'⟩
    · simp only [authenticate]
      rw [if_neg h]
      show (authenticate now token ks).1.isSome ↔ _
      rw [ih]
      constructor
      · rintro ⟨x, hx, hkey, hact⟩
        exact ⟨x, by simp [hx], hkey, hact⟩
      · rintro ⟨x, hx, hkey, hact⟩
        rcases List.mem_cons.mp hx with rfl | hx'
        · exfalso
          apply h
          simp [hkey, hact]
        · exact ⟨x, hx', hkey, hact⟩

lemma authenticate_some :
    ∀ (keys : List APIKey) (token : String) (now : Nat) (k' : APIKey),
      (authenticate now token keys).1 = some k' →
      ∃ l₁ k₀ l₂,
        keys = l₁ ++ k₀ :: l₂ ∧
        (∀ j ∈ l₁, ¬(j.key = token ∧ j.is_active = true)) ∧
        k₀.key = token ∧ k₀.is_active = true ∧
        k' = { k₀ with last_used_at := some now } ∧
        (authenticate now token keys).2 =
          l₁ ++ { k₀ with last_used_at := some now } :: l₂ := by
  intro keys token now
  induction keys with
  | nil => intro k' h; simp [authenticate] at h
  | cons k ks ih =>
    intro k' h
    by_cases hk : k.key == token && k.is_active
    · have hk' : k.key = token ∧ k.is_active = true := by simpa using hk
      simp only [authenticate] at h ⊢
      rw [if_pos hk] at h ⊢
      refine ⟨[], k, ks, rfl, by simp, hk'.1, hk'.2, ?_, by simp⟩
      simpa using h.symm
    · simp only [authenticate] at h ⊢
      rw [if_neg hk] at h ⊢
      obtain ⟨l₁, k₀, l₂, hdec, hnone, hkey, hact, hk', hstate⟩ := ih k' h
      refine ⟨k :: l₁, k₀, l₂, by simp [hdec], ?_, hkey, hact, hk', ?_⟩
      · intro j hj
        rcases List.mem_cons.mp hj with rfl | hj'
        · intro hcontra
          apply hk
          simp [hcontra.1, hcontra.2]
        · exact hnone j hj'
      · show k :: (authenticate now token ks).2 = _
        rw [hstate]
        simp

lemma authenticate_none :
    ∀ (keys : List APIKey) (token : String) (now : Nat),
      (authenticate now token keys).1 = none →
      (authenticate now token keys).2 = keys := by
  intro keys token now
  induction keys with
  | nil => intro _; rfl
  | cons k ks ih =>
    intro h
    by_cases hk : k.key == token && k.is_active
    · simp only [authenticate] at h
      rw [if_pos hk] at h
      simp at h
    · simp only [authenticate] at h ⊢
      rw [if_neg hk] at h ⊢
      show k :: (authenticate now token ks).2 = k :: ks
      rw [ih h]

/-- C4: `authenticate` succeeds exactly when some stored key matches the token
exactly and is active; on success it returns that stored key (with its
`last_used_at` refreshed); every non-matching token — a value that never
existed or the value of a deactivated key — yields the same `None` result,
with no distinction between the two failure causes. -/
theorem authenticate_spec (keys : List APIKey) (token : String) (now : Nat) :
    ((authenticate now token keys).1.isSome ↔
      ∃ k ∈ keys, k.key = token ∧ k.is_active = true) ∧
    (∀ k', (authenticate now token keys).1 = some k' →
      ∃ k ∈ keys, k.key = token ∧ k.is_active = true ∧
        k' = { k with last_used_at := some now }) ∧
    (∀ token', ¬(∃ k ∈ keys, k.key = token' ∧ k.is_active = true) →
      (authenticate now token' keys).1 = none) ∧
    (∀ t₁ t₂, (authenticate now t₁ keys).1 = none →
      (authenticate now t₂ keys).1 = none →
      (authenticate now t₁ keys).1 = (authenticate now t₂ keys).1) := by
  refine ⟨authenticate_isSome keys token now, ?_, ?_, ?_⟩
  · intro k' h
    obtain ⟨l₁, k₀, l₂, hdec, _, hkey, hact, hk', _⟩ :=
      authenticate_some keys token now k' h
    exact ⟨k₀, by rw [hdec]; simp, hkey, hact, hk'⟩
  · intro token' hno
    have h := (authenticate_isSome keys token' now).not.mpr hno
    exact Option.not_isSome_iff_eq_none.mp h
  · intro t₁ t₂ h1 h2
    rw [h1, h2]

/-- C6: on a successful `authenticate` call the matched key's `last_used_at`
is set to the current time within that call, no other field of that record and
no other record changes; on an unsuccessful call no stored state changes at
all. -/
theorem authenticate_frame (keys : List APIKey) (token : String) (now : Nat) :
    ((authenticate now token keys).1 = none →
      (authenticate now token keys).2 = keys) ∧
    (∀ k', (authenticate now token keys).1 = some k' →
      ∃ l₁ k₀ l₂,
        keys = l₁ ++ k₀ :: l₂ ∧
        (authenticate now token keys).2 =
          l₁ ++ { k₀ with last_used_at := some now } :: l₂ ∧
        k' = { k₀ with last_used_at := some now } ∧
        k'.last_used_at = some now ∧
        k'.id = k₀.id ∧ k'.name = k₀.name ∧ k'.key = k₀.key ∧
        k'.is_active = k₀.is_active ∧ k'.created_at = k₀.created_at ∧
        k'.created_by = k₀.created_by) := by
  refine ⟨authenticate_none keys token now, ?_⟩
  intro k' h
  obtain ⟨l₁, k₀, l₂, hdec, _, _, _, hk', hstate⟩ :=
    authenticate_some keys token now k' h
  subst hk'
  exact ⟨l₁, k₀, l₂, hdec, hstate, rfl, rfl, rfl, rfl, rfl, rfl, rfl, rfl⟩

/-- Example API key (active, never used) for concrete evaluations; its `key`
value is a 64-character token. -/
def exKey : APIKey :=
  { id := 1, name := "Test App",
    key := "aaaaaaaaaaaaaaaaaaaaaaaaaaaaaaaabbbbbbbbbbbbbbbbbbbbbbbbbbbbbbbb",
    is_active := true, created_at := 0, last_used_at := none,
    created_by := some "admin" }

/-- Witness for C4 at a concrete key table: presenting the stored active key's
exact value authenticates successfully. -/
theorem authenticate_spec_witness :
    (authenticate 5 "aaaaaaaaaaaaaaaaaaaaaaaaaaaaaaaabbbbbbbbbbbbbbbbbbbbbbbbbbbbbbbb"
      [exKey]).1.isSome :=
  (authenticate_spec [exKey]
      "aaaaaaaaaaaaaaaaaaaaaaaaaaaaaaaabbbbbbbbbbbbbbbbbbbbbbbbbbbbbbbb" 5).1.mpr
    ⟨exKey, by simp, by decide, by decide⟩

/-- Witness for C6 at a concrete key table: the successful call updates the
stored key's `last_used_at` from null to the current time and changes nothing
else. -/
theorem authenticate_frame_witness :
    ∃ l₁ k₀ l₂,
      [exKey] = l₁ ++ k₀ :: l₂ ∧
      (authenticate 5 "aaaaaaaaaaaaaaaaaaaaaaaaaaaaaaaabbbbbbbbbbbbbbbbbbbbbbbbbbbbbbbb"
        [exKey]).2 = l₁ ++ { k₀ with last_used_at := some 5 } :: l₂ ∧
      { exKey with last_used_at := some 5 } = { k₀ with last_used_at := some 5 } ∧
      ({ exKey with last_used_at := some 5 } : APIKey).last_used_at = some 5 ∧
      ({ exKey with last_used_at := some 5 } : APIKey).id = k₀.id ∧
      ({ exKey with last_used_at := some 5 } : APIKey).name = k₀.name ∧
      ({ exKey with last_used_at := some 5 } : APIKey).key = k₀.key ∧
      ({ exKey with last_used_at := some 5 } : APIKey).is_active = k₀.is_active ∧
      ({ exKey with last_used_at := some 5 } : APIKey).created_at = k₀.created_at ∧
      ({ exKey with last_used_at := some 5 } : APIKey).created_by = k₀.created_by :=
  (authenticate_frame [exKey]
      "aaaaaaaaaaaaaaaaaaaaaaaaaaaaaaaabbbbbbbbbbbbbbbbbbbbbbbbbbbbbbbb" 5).2
    { exKey with last_used_at := some 5 } (by decide)

/-- Modelled from the spec: the administrative API-key generation is part of
the `APIKey` model, whose class definition is absent from
src/status/models.py (src/status/test_api.py asserts `len(api_key.key) == 64`
and uniqueness, and spec sections 3 and 4.3 describe a server-side
64-character token with a retry on a uniqueness collision at insert time).
`gen n` stands for the n-th draw from the random source; the function draws
tokens until one is not already stored, `fuel` bounding the retries. -/
def generate_unique_key (gen : Nat → String) (existing : List String) :
    Nat → Nat → Option String
  | _, 0 => none
  | attempt, fuel + 1 =>
    let t := gen attempt
    if existing.contains t then generate_unique_key gen existing (attempt + 1) fuel
    else some t

lemma generate_unique_key_ok (gen : Nat → String) (existing : List String) :
    ∀ (fuel attempt : Nat),
      (∃ i, i < fuel ∧ gen (attempt + i) ∉ existing) →
      ∃ k, generate_unique_key gen existing attempt fuel = some k ∧
        k ∉ existing ∧ ∃ n, k = gen n := by
  intro fuel
  induction fuel with
  | zero => intro attempt ⟨i, hi, _⟩; omega
  | succ f ih =>
    intro attempt ⟨i, hi, hfresh⟩
    by_cases hc : existing.contains (gen attempt)
    · have hmem : gen attempt ∈ existing := by
        simpa [List.contains] using hc
      have hi0 : i ≠ 0 := by
        intro h0
        rw [h0] at hfresh
        simp at hfresh
        exact hfresh hmem
      obtain ⟨j, rfl⟩ : ∃ j, i = j + 1 := ⟨i - 1, by omega⟩
      have hrec := ih (attempt + 1) ⟨j, by omega, by
        have : attempt + 1 + j = attempt + (j + 1) := by omega
        rw [this]
        exact hfresh⟩
      obtain ⟨k, hk, hkmem, hkgen⟩ := hrec
      refine ⟨k, ?_, hkmem, hkgen⟩
      simp only [generate_unique_key]
      rw [if_pos hc]
      exact hk
    · refine ⟨gen attempt, ?_, ?_, attempt, rfl⟩
      · simp only [generate_unique_key]
        rw [if_neg hc]
      · intro hmem
        exact hc (by simpa [List.contains] using hmem)

/-- C7: an administrative `APIKey` creation generates the key value
server-side — the produced key is a draw `gen n` from the random source, never
a client-supplied input — as a 64-character token unique across all stored
keys, retrying on a uniqueness collision at insert time (the result is defined
as soon as some draw within the retry budget is fresh). -/
theorem generate_unique_key_spec (gen : Nat → String) (existing : List String)
    (fuel : Nat) (h64 : ∀ n, (gen n).length = 64)
    (hfresh : ∃ i, i < fuel ∧ gen i ∉ existing) :
    ∃ k, generate_unique_key gen existing 0 fuel = some k ∧
      k.length = 64 ∧ k ∉ existing ∧ ∃ n, k = gen n := by
  obtain ⟨i, hi, hf⟩ := hfresh
  obtain ⟨k, hk, hkmem, n, hkgen⟩ :=
    generate_unique_key_ok gen existing fuel 0 ⟨i, hi, by simpa using hf⟩
  exact ⟨k, hk, by rw [hkgen]; exact h64 n, hkmem, n, hkgen⟩

/-- A deterministic stand-in for the random source used in the C7 witness:
draw 0 collides with the stored key, draw 1 is fresh. -/
def exGen (n : Nat) : String :=
  if n = 0 then "aaaaaaaaaaaaaaaaaaaaaaaaaaaaaaaabbbbbbbbbbbbbbbbbbbbbbbbbbbbbbbb"
  else "ccccccccccccccccccccccccccccccccdddddddddddddddddddddddddddddddd"

/-- Witness for C7: with one stored key equal to draw 0, generation retries
and returns the fresh 64-character draw 1. -/
theorem generate_unique_key_spec_witness :
    ∃ k, generate_unique_key exGen
        ["aaaaaaaaaaaaaaaaaaaaaaaaaaaaaaaabbbbbbbbbbbbbbbbbbbbbbbbbbbbbbbb"] 0 2 =
        some k ∧
      k.length = 64 ∧
      k ∉ ["aaaaaaaaaaaaaaaaaaaaaaaaaaaaaaaabbbbbbbbbbbbbbbbbbbbbbbbbbbbbbbb"] ∧
      ∃ n, k = exGen n :=
  generate_unique_key_spec exGen
    ["aaaaaaaaaaaaaaaaaaaaaaaaaaaaaaaabbbbbbbbbbbbbbbbbbbbbbbbbbbbbbbb"] 2
    (fun n => by unfold exGen; split <;> decide) ⟨1, by omega, by decide⟩

/-- The exceptions a request path can surface: `Http404` raised by
`get_object_or_404`, ninja's `HttpError(code, msg)`, Python's `TypeError`
(unexpected model kwarg), `AttributeError` (missing instance attribute) and
`ValueError` (negative queryset slicing). -/
inductive ApiError
  | notFound
  | httpError (code : Nat) (msg : String)
  | typeError (msg : String)
  | attributeError (msg : String)
  | valueError (msg : String)
deriving DecidableEq, Repr

/-- A JSON-ish value for serialized responses: strings, datetimes (rendered
as ISO-8601 by the web layer, kept here as the raw timestamp), integers and
null. -/
inductive JVal
  | str (s : String)
  | time (t : Nat)
  | int (n : Nat)
  | null
deriving DecidableEq, Repr

/-- Python attribute access `update.comments` on a `StatusUpdate` instance:
the model (src/status/models.py) declares no `comments` field, so the access
raises `AttributeError`.  The `ok` branch is the value the access would yield
were the field declared; it is unreachable because `"comments"` is not in
`statusUpdateFieldNames`. -/
def getattr_comments (_u : StatusUpdate) : Except ApiError String :=
  if statusUpdateFieldNames.contains "comments" then .ok ""
  else .error (.attributeError "StatusUpdate object has no attribute comments")

/-- The `update.service` foreign-key dereference (always resolvable under the
cascade-delete integrity of the schema). -/
def fk_service (db : Db) (u : StatusUpdate) : Except ApiError Service :=
  match db.services.find? (fun s => s.id == u.service_id) with
  | some s => .ok s
  | none => .error .notFound

/-- Embedding of `status_update_to_dict` (src/status/api.py lines 22-34).
The dict literal is evaluated left to right: `id`, `service_id`,
`service_name`, `status`, `status_display` succeed, then `update.comments`
raises `AttributeError` because the `StatusUpdate` model declares `problem`
and `plan` but no `comments` field. -/
def status_update_to_dict (db : Db) (u : StatusUpdate) :
    Except ApiError (List (String × JVal)) := do
  let service ← fk_service db u
  let comments ← getattr_comments u
  pure [("id", .int u.id),
        ("service_id", .int service.id),
        ("service_name", .str service.name),
        ("status", .str u.status),
        ("status_display", .str (get_status_display u.status)),
        ("comments", .str comments),
        ("plan", .str u.plan),
        ("created_at", .time u.created_at),
        ("created_by_username",
          match u.created_by with | some n => .str n | none => .null)]

/-- The list comprehension `[status_update_to_dict(update) for update in
updates]`: serialize in order, propagating the first exception. -/
def map_to_dicts (db : Db) : List StatusUpdate →
    Except ApiError (List (List (String × JVal)))
  | [] => .ok []
  | u :: us => do
    let d ← status_update_to_dict db u
    let ds ← map_to_dicts db us
    pure (d :: ds)

/-- The request body schema of `POST /status-updates`
(src/status/api_schemas.py, `StatusUpdateCreateSchema`): required
`service_id` and `status`, optional `comments` and `plan` defaulting to the
empty string. -/
structure StatusUpdateCreateSchema where
  service_id : Nat
  status : String
  comments : Option String := some ""
  plan : Option String := some ""
deriving DecidableEq, Repr

/-- The keyword arguments src/status/api.py lines 94-100 pass to
`StatusUpdate.objects.create`. -/
def create_kwarg_names : List String :=
  ["service", "status", "comments", "plan", "created_by"]

/-- Embedding of `StatusUpdate.objects.create` (src/status/api.py lines 94-100):
Django's `Model.__init__` raises `TypeError` on any keyword that is not a
declared field — here `comments` is not one — otherwise it inserts a fresh row
(primary key assigned by the store, `created_at` defaulting to now,
`problem` defaulting to its blank value).  Returns the row and the new table
state. -/
def statusUpdate_objects_create (db : Db) (now : Nat) (service : Service)
    (status : String) (_comments : String) (plan : String) :
    Except ApiError (StatusUpdate × Db) :=
  match create_kwarg_names.find? (fun kw => !(statusUpdateFieldNames.contains kw)) with
  | some kw => .error (.typeError ("StatusUpdate() got unexpected keyword arguments: " ++ kw))
  | none =>
    let uid := db.status_updates.foldl (fun m u => Nat.max m u.id) 0 + 1
    let u : StatusUpdate :=
      { id := uid, service_id := service.id, status := status,
        problem := "", plan := plan, created_at := now, created_by := none }
    .ok (u, { db with status_updates := db.status_updates ++ [u] })

/-- Embedding of `create_status_update` (src/status/api.py lines 70-102), the
handler of `POST /status-updates`: `get_object_or_404(Service,
id=payload.service_id)` (no `is_active` filter), then the status-choice
validation with its enumerated message, then `StatusUpdate.objects.create`
with `created_by=None` and finally `status_update_to_dict` for the 201 body.
Returns the serialized body and the new database state. -/
def create_status_update (db : Db) (now : Nat)
    (payload : StatusUpdateCreateSchema) :
    Except ApiError (List (String × JVal) × Db) := do
  let service ← match db.services.find? (fun s => s.id == payload.service_id) with
    | some s => Except.ok s
    | none => Except.error ApiError.notFound
  if !(valid_statuses.contains payload.status) then
    Except.error (.httpError 400
      ("Invalid status. Must be one of: " ++ String.intercalate ", " valid_statuses))
  else do
    let r ← statusUpdate_objects_create db now service payload.status
      (payload.comments.getD "") (payload.plan.getD "")
    let d ← status_update_to_dict r.2 r.1
    pure (d, r.2)

/-- Python's queryset slicing `qs[:limit]` with an `int` bound: negative
bounds raise `ValueError("Negative indexing is not supported.")`, a
non-negative bound keeps the first `limit` rows. -/
def queryset_slice {α : Type} (l : List α) (limit : Int) :
    Except ApiError (List α) :=
  if limit < 0 then .error (.valueError "Negative indexing is not supported.")
  else .ok (l.take limit.toNat)

/-- The row-selection step of `list_status_updates` (src/status/api.py lines
118-121): clamp the requested limit to 200 from above, then slice the
globally ordered (most recent first) update table. -/
def status_updates_sliced (db : Db) (limit : Int) :
    Except ApiError (List StatusUpdate) :=
  let lim := if limit > 200 then (200 : Int) else limit
  queryset_slice (order_by_created_at_desc db.status_updates) lim

/-- Embedding of `list_status_updates` (src/status/api.py lines 104-122), the
handler of `GET /status-updates`: select at most the clamped limit of rows,
most recent first, then serialize each with `status_update_to_dict`. -/
def list_status_updates (db : Db) (limit : Int) :
    Except ApiError (List (List (String × JVal))) := do
  let us ← status_updates_sliced db limit
  map_to_dicts db us

/-- The row-selection step of `get_service_history` (src/status/api.py lines
180-193): resolve the service by id only (`get_object_or_404(Service,
id=service_id)`, active or not), clamp the limit to 100 from above, then
slice the service's updates, most recent first. -/
def service_history_sliced (db : Db) (sid : Nat) (limit : Int) :
    Except ApiError (List StatusUpdate) := do
  let _service ← match db.services.find? (fun s => s.id == sid) with
    | some s => Except.ok s
    | none => Except.error ApiError.notFound
  let lim := if limit > 100 then (100 : Int) else limit
  queryset_slice (order_by_created_at_desc (service_updates db sid)) lim

/-- Embedding of `get_service_history` (src/status/api.py lines 174-193), the
handler of `GET /services/{id}/history`: the selected rows serialized with
`status_update_to_dict`. -/
def get_service_history (db : Db) (sid : Nat) (limit : Int) :
    Except ApiError (List (List (String × JVal))) := do
  let us ← service_history_sliced db sid limit
  map_to_dicts db us

/-- The error message of the status-choice validation (src/status/api.py
lines 86-91). -/
def invalid_status_msg : String :=
  "Invalid status. Must be one of: " ++ String.intercalate ", " valid_statuses

/-- The `TypeError` message raised because `comments` is not a `StatusUpdate`
field. -/
def comments_type_error_msg : String :=
  "StatusUpdate() got unexpected keyword arguments: comments"

lemma objects_create_typeError (db : Db) (now : Nat) (service : Service)
    (status comments plan : String) :
    statusUpdate_objects_create db now service status comments plan =
      .error (.typeError comments_type_error_msg) := rfl

lemma create_result_shape (db : Db) (now : Nat)
    (payload : StatusUpdateCreateSchema) :
    (db.services.find? (fun s => s.id == payload.service_id) = none ∧
      create_status_update db now payload = .error .notFound) ∨
    (∃ s, db.services.find? (fun s => s.id == payload.service_id) = some s ∧
      valid_statuses.contains payload.status = false ∧
      create_status_update db now payload = .error (.httpError 400 invalid_status_msg)) ∨
    (∃ s, db.services.find? (fun s => s.id == payload.service_id) = some s ∧
      valid_statuses.contains payload.status = true ∧
      create_status_update db now payload = .error (.typeError comments_type_error_msg)) := by
  cases hfind : db.services.find? (fun s => s.id == payload.service_id) with
  | none =>
    left
    refine ⟨rfl, ?_⟩
    simp [create_status_update, hfind, Bind.bind, Except.bind]
  | some s =>
    by_cases hstat : valid_statuses.contains payload.status
    · right; right
      refine ⟨s, rfl, hstat, ?_⟩
      have hmem : payload.status ∈ valid_statuses := by
        simpa [List.contains] using hstat
      simp [create_status_update, hfind, hstat, Bind.bind, Except.bind,
        objects_create_typeError, hmem]
    · right; left
      refine ⟨s, rfl, by simpa using hstat, ?_⟩
      simp [create_status_update, hfind, Bind.bind, Except.bind,
        invalid_status_msg, Bool.not_eq_true] at hstat ⊢
      simp [hstat]

/-- C5: `create_status_update` fails with `NotFound` exactly when
`service_id` resolves to no stored `Service` — an existing but inactive
service is accepted past the lookup — and (when the service resolves) fails
with `InvalidArgument` (HTTP 400) exactly when `status` is not one of the
five recognized values, with a message enumerating them; no other 4xx error
arises. -/
theorem create_status_update_error_spec (db : Db) (now : Nat)
    (payload : StatusUpdateCreateSchema) :
    (create_status_update db now payload = .error .notFound ↔
      ∀ s ∈ db.services, s.id ≠ payload.service_id) ∧
    (create_status_update db now payload = .error (.httpError 400 invalid_status_msg) ↔
      (∃ s ∈ db.services, s.id = payload.service_id) ∧
        payload.status ∉ valid_statuses) ∧
    invalid_status_msg =
      "Invalid status. Must be one of: stable, degraded, partial, down, maintenance" ∧
    (∀ code msg, create_status_update db now payload = .error (.httpError code msg) →
      code = 400 ∧ msg = invalid_status_msg) ∧
    (∀ s ∈ db.services, s.id = payload.service_id → s.is_active = false →
      create_status_update db now payload ≠ .error .notFound) := by
  have hshape := create_result_shape db now payload
  have hnone_iff : db.services.find? (fun s => s.id == payload.service_id) = none ↔
      ∀ s ∈ db.services, s.id ≠ payload.service_id := by
    rw [List.find?_eq_none]
    constructor
    · intro h s hs
      have := h s hs
      simpa using this
    · intro h s hs
      simpa using h s hs
  have hsome_iff : (∃ s ∈ db.services, s.id = payload.service_id) ↔
      (db.services.find? (fun s => s.id == payload.service_id)).isSome := by
    rw [List.find?_isSome]
    constructor
    · rintro ⟨s, hs, hid⟩
      exact ⟨s, hs, by simpa using hid⟩
    · rintro ⟨s, hs, hid⟩
      exact ⟨s, hs, by simpa using hid⟩
  refine ⟨?_, ?_, by decide, ?_, ?_⟩
  · constructor
    · intro h
      rcases hshape with ⟨hfind, _⟩ | ⟨s, _, _, hres⟩ | ⟨s, _, _, hres⟩
      · exact hnone_iff.mp hfind
      · rw [hres] at h; simp at h
      · rw [hres] at h; simp at h
    · intro h
      rcases hshape with ⟨_, hres⟩ | ⟨s, hfind, _, _⟩ | ⟨s, hfind, _, _⟩
      · exact hres
      · exact absurd (hnone_iff.mpr h) (by simp [hfind])
      · exact absurd (hnone_iff.mpr h) (by simp [hfind])
  · constructor
    · intro h
      rcases hshape with ⟨_, hres⟩ | ⟨s, hfind, hstat, hres⟩ | ⟨s, hfind, _, hres⟩
      · rw [hres] at h; simp at h
      · refine ⟨hsome_iff.mpr (by simp [hfind]), ?_⟩
        intro hmem
        have : valid_statuses.contains payload.status = true := by
          simpa [List.contains] using hmem
        rw [this] at hstat
        simp at hstat
      · rw [hres] at h; simp at h
    · rintro ⟨hex, hstat⟩
      rcases hshape with ⟨hfind, _⟩ | ⟨s, hfind, _, hres⟩ | ⟨s, hfind, hstat', _⟩
      · exact absurd (hsome_iff.mp hex) (by simp [hfind])
      · exact hres
      · exfalso
        apply hstat
        have : payload.status ∈ valid_statuses := by
          have := hstat'
          simpa [List.contains] using this
        exact this
  · intro code msg h
    rcases hshape with ⟨_, hres⟩ | ⟨s, _, _, hres⟩ | ⟨s, _, _, hres⟩ <;>
      rw [hres] at h <;> simp at h
    exact ⟨h.1.symm, h.2.symm⟩
  · intro s hs hid _ h
    rcases hshape with ⟨hfind, hres⟩ | ⟨s', _, _, hres⟩ | ⟨s', _, _, hres⟩
    · exact absurd hid (hnone_iff.mp hfind s hs)
    · rw [hres] at h; simp at h
    · rw [hres] at h; simp at h

/-- Witness for C5 at a concrete input: creating with an unknown `service_id`
fails with `NotFound`. -/
theorem create_status_update_error_spec_witness :
    create_status_update exDb2 100
      { service_id := 99999, status := "stable",
        comments := some "x", plan := some "" } = .error .notFound :=
  (create_status_update_error_spec exDb2 100
      { service_id := 99999, status := "stable",
        comments := some "x", plan := some "" }).1.mpr (by decide)

/-- C1 (code evaluation at the failing input): a `POST /status-updates` with
an existing active service and a valid status does not create anything — it
raises `TypeError`, because src/status/api.py passes `comments=` to
`StatusUpdate.objects.create` while the `StatusUpdate` model declares no
`comments` field — so no created record exists whose fetches could be
compared, and the claimed round-trip fails at its first step. -/
theorem create_status_update_round_trip_crashes :
    create_status_update exDb2 100
      { service_id := 1, status := "stable",
        comments := some "All systems operational", plan := some "" } =
      .error (.typeError comments_type_error_msg) := rfl

lemma queryset_slice_ok {α : Type} {l : List α} {limit : Int} {us : List α}
    (h : queryset_slice l limit = .ok us) : us = l.take limit.toNat := by
  unfold queryset_slice at h
  split at h
  · exact absurd h (by simp)
  · simpa using h.symm

lemma map_to_dicts_length (db : Db) :
    ∀ (us : List StatusUpdate) (rows : List (List (String × JVal))),
      map_to_dicts db us = .ok rows → rows.length = us.length := by
  intro us
  induction us with
  | nil =>
    intro rows h
    simp [map_to_dicts] at h
    simp [← h]
  | cons u t ih =>
    intro rows h
    simp only [map_to_dicts, Bind.bind, Except.bind] at h
    cases hd : status_update_to_dict db u with
    | error e => rw [hd] at h; simp at h
    | ok d =>
      rw [hd] at h
      cases ht : map_to_dicts db t with
      | error e => rw [ht] at h; simp at h
      | ok ds =>
        rw [ht] at h
        simp only [pure, Except.pure] at h
        have : d :: ds = rows := by simpa using h
        rw [← this]
        simp [ih ds ht]

lemma except_bind_ok {α β : Type} {x : Except ApiError α} {f : α → Except ApiError β}
    {b : β} (h : (x >>= f) = .ok b) : ∃ a, x = .ok a ∧ f a = .ok b := by
  cases x with
  | error e => simp [Bind.bind, Except.bind] at h
  | ok a => exact ⟨a, rfl, by simpa [Bind.bind, Except.bind] using h⟩

lemma status_updates_sliced_len (db : Db) (limit : Int) (us : List StatusUpdate)
    (h : status_updates_sliced db limit = .ok us) : us.length ≤ 200 := by
  unfold status_updates_sliced at h
  have hus := queryset_slice_ok h
  rw [hus, List.length_take]
  have htn : ((if limit > 200 then (200 : Int) else limit)).toNat ≤ 200 := by
    by_cases hlim : limit > 200
    · rw [if_pos hlim]; decide
    · rw [if_neg hlim]
      exact Int.toNat_le.mpr (by omega)
  exact le_trans (min_le_left _ _) htn

lemma service_history_sliced_len (db : Db) (sid : Nat) (limit : Int)
    (us : List StatusUpdate)
    (h : service_history_sliced db sid limit = .ok us) : us.length ≤ 100 := by
  unfold service_history_sliced at h
  cases hfind : db.services.find? (fun s => s.id == sid) with
  | none => rw [hfind] at h; simp [Bind.bind, Except.bind] at h
  | some s =>
    rw [hfind] at h
    simp only [Bind.bind, Except.bind] at h
    have hus := queryset_slice_ok h
    rw [hus, List.length_take]
    have htn : ((if limit > 100 then (100 : Int) else limit)).toNat ≤ 100 := by
      by_cases hlim : limit > 100
      · rw [if_pos hlim]; decide
      · rw [if_neg hlim]
        exact Int.toNat_le.mpr (by omega)
    exact le_trans (min_le_left _ _) htn

/-- C9: whatever limit is requested, `GET /status-updates` selects and
returns at most 200 rows (the limit is clamped to 200) and
`GET /services/{id}/history` selects and returns at most 100 rows (the limit
is clamped to 100). -/
theorem list_limits_spec (db : Db) (sid : Nat) (limit₁ limit₂ : Int) :
    (∀ us, status_updates_sliced db limit₁ = .ok us → us.length ≤ 200) ∧
    (∀ rows, list_status_updates db limit₁ = .ok rows → rows.length ≤ 200) ∧
    (∀ us, service_history_sliced db sid limit₂ = .ok us → us.length ≤ 100) ∧
    (∀ rows, get_service_history db sid limit₂ = .ok rows → rows.length ≤ 100) := by
  refine ⟨fun us h => status_updates_sliced_len db limit₁ us h, ?_,
    fun us h => service_history_sliced_len db sid limit₂ us h, ?_⟩
  · intro rows h
    obtain ⟨us, hus, hmap⟩ := except_bind_ok h
    rw [map_to_dicts_length db us rows hmap]
    exact status_updates_sliced_len db limit₁ us hus
  · intro rows h
    obtain ⟨us, hus, hmap⟩ := except_bind_ok h
    rw [map_to_dicts_length db us rows hmap]
    exact service_history_sliced_len db sid limit₂ us hus

/-- Witness for C9: on the concrete database, `limit=1000` selects both
stored updates — at most 200. -/
theorem list_limits_spec_witness :
    ∃ us, status_updates_sliced exDb2 1000 = .ok us ∧ us.length ≤ 200 :=
  ⟨[exUpd2, exUpd1], rfl,
    (list_limits_spec exDb2 1 1000 1000).1 [exUpd2, exUpd1] rfl⟩

/-- C10: the limit is clamped only from above: `limit=0` yields an empty
list from both endpoints (no clamp to a positive floor), every negative limit
makes the queryset slicing step fail with `ValueError` so the endpoints error
instead of returning rows, and for a requested limit within the cap the
selection takes exactly the requested number of most-recent rows. -/
theorem limit_lower_bound_spec (db : Db) (sid : Nat) (limit : Int) :
    (list_status_updates db 0 = .ok []) ∧
    ((∃ s ∈ db.services, s.id = sid) → get_service_history db sid 0 = .ok []) ∧
    (limit < 0 → list_status_updates db limit =
      .error (.valueError "Negative indexing is not supported.")) ∧
    (limit < 0 → (∃ s ∈ db.services, s.id = sid) →
      get_service_history db sid limit =
        .error (.valueError "Negative indexing is not supported.")) ∧
    (0 ≤ limit → limit ≤ 200 → status_updates_sliced db limit =
      .ok ((order_by_created_at_desc db.status_updates).take limit.toNat)) ∧
    (0 ≤ limit → limit ≤ 100 → (∃ s ∈ db.services, s.id = sid) →
      service_history_sliced db sid limit =
        .ok ((order_by_created_at_desc (service_updates db sid)).take limit.toNat)) := by
  have hfind_of_ex : (∃ s ∈ db.services, s.id = sid) →
      ∃ s, db.services.find? (fun s => s.id == sid) = some s := by
    rintro ⟨s, hs, hid⟩
    have : (db.services.find? (fun s => s.id == sid)).isSome :=
      List.find?_isSome.mpr ⟨s, hs, by simpa using hid⟩
    exact Option.isSome_iff_exists.mp this
  refine ⟨?_, ?_, ?_, ?_, ?_, ?_⟩
  · simp [list_status_updates, status_updates_sliced, queryset_slice,
      map_to_dicts, Bind.bind, Except.bind]
  · intro hex
    obtain ⟨s, hfind⟩ := hfind_of_ex hex
    simp [get_service_history, service_history_sliced, hfind, queryset_slice,
      map_to_dicts, Bind.bind, Except.bind]
  · intro hneg
    have h200 : ¬(limit > 200) := by omega
    simp [list_status_updates, status_updates_sliced, queryset_slice, h200,
      hneg, Bind.bind, Except.bind]
  · intro hneg hex
    obtain ⟨s, hfind⟩ := hfind_of_ex hex
    have h100 : ¬(limit > 100) := by omega
    simp [get_service_history, service_history_sliced, hfind, queryset_slice,
      h100, hneg, Bind.bind, Except.bind]
  · intro h0 h200
    have hgt : ¬(limit > 200) := by omega
    have hneg : ¬(limit < 0) := by omega
    simp [status_updates_sliced, queryset_slice, hgt, hneg]
  · intro h0 h100 hex
    obtain ⟨s, hfind⟩ := hfind_of_ex hex
    have hgt : ¬(limit > 100) := by omega
    have hneg : ¬(limit < 0) := by omega
    simp [service_history_sliced, hfind, queryset_slice, hgt, hneg,
      Bind.bind, Except.bind]

/-- Witness for C10: a negative limit makes `GET /status-updates` fail with
the negative-indexing `ValueError` on the concrete database. -/
theorem limit_lower_bound_spec_witness :
    list_status_updates exDb2 (-1) =
      .error (.valueError "Negative indexing is not supported.") :=
  (limit_lower_bound_spec exDb2 1 (-1)).2.2.1 (by decide)

/-- One serialized update of the public JSON history endpoint
(src/status/views.py lines 60-70): the dict literal keys, in source order —
the display label is under the key `status`, the stored code under
`status_code`. -/
def history_entry (u : StatusUpdate) : List (String × JVal) :=
  [("status", .str (get_status_display u.status)),
   ("status_code", .str u.status),
   ("problem", .str u.problem),
   ("plan", .str u.plan),
   ("created_at", .time u.created_at),
   ("created_by", match u.created_by with | some n => .str n | none => .null)]

/-- Embedding of `service_history_json` (src/status/views.py lines 55-75):
`get_object_or_404(Service, id=service_id, is_active=True)` (missing or
inactive service → 404), then `service.status_updates.all()[:10]` under the
model's `-created_at` default ordering, serialized plus the service name. -/
def service_history_json (db : Db) (sid : Nat) :
    Except ApiError (String × List (List (String × JVal))) :=
  match db.services.find? (fun s => s.id == sid && s.is_active) with
  | none => .error .notFound
  | some s =>
    let updates := (order_by_created_at_desc (service_updates db sid)).take 10
    .ok (s.name, updates.map history_entry)

lemma mem_insertByCreatedAtDesc {x u : StatusUpdate} :
    ∀ {l : List StatusUpdate},
      x ∈ insertByCreatedAtDesc u l ↔ x = u ∨ x ∈ l := by
  intro l
  induction l with
  | nil => simp [insertByCreatedAtDesc]
  | cons v vs ih =>
    by_cases h : u.created_at < v.created_at
    · simp only [insertByCreatedAtDesc, if_pos h, List.mem_cons, ih]
      tauto
    · simp [insertByCreatedAtDesc, if_neg h]

lemma pairwise_insertByCreatedAtDesc {u : StatusUpdate} :
    ∀ {l : List StatusUpdate},
      List.Pairwise (fun a b => b.created_at ≤ a.created_at) l →
      List.Pairwise (fun a b => b.created_at ≤ a.created_at)
        (insertByCreatedAtDesc u l) := by
  intro l
  induction l with
  | nil => intro _; simp [insertByCreatedAtDesc]
  | cons v vs ih =>
    intro hp
    rw [List.pairwise_cons] at hp
    by_cases h : u.created_at < v.created_at
    · rw [insertByCreatedAtDesc, if_pos h, List.pairwise_cons]
      refine ⟨?_, ih hp.2⟩
      intro x hx
      rcases mem_insertByCreatedAtDesc.mp hx with rfl | hx'
      · exact le_of_lt h
      · exact hp.1 x hx'
    · rw [insertByCreatedAtDesc, if_neg h, List.pairwise_cons]
      push_neg at h
      refine ⟨?_, List.pairwise_cons.mpr hp⟩
      intro x hx
      rcases List.mem_cons.mp hx with rfl | hx'
      · exact h
      · exact le_trans (hp.1 x hx') h

lemma pairwise_order_by_created_at_desc :
    ∀ (l : List StatusUpdate),
      List.Pairwise (fun a b => b.created_at ≤ a.created_at)
        (order_by_created_at_desc l) := by
  intro l
  induction l with
  | nil => simp [order_by_created_at_desc]
  | cons u us ih =>
    exact pairwise_insertByCreatedAtDesc ih

/-- Counterexample for C8 as stated: on a concrete active service the public
JSON history endpoint serializes its update with keys
`status, status_code, problem, plan, created_at, created_by` — there is no
`status_display` key (the display label sits under `status`). -/
theorem service_history_json_key_counterexample :
    service_history_json exDb2 2 = .ok ("Service 2", [history_entry exUpd2]) ∧
    (history_entry exUpd2).map Prod.fst =
      ["status", "status_code", "problem", "plan", "created_at", "created_by"] ∧
    ¬ ("status_display" ∈ (history_entry exUpd2).map Prod.fst) := by
  refine ⟨rfl, rfl, by decide⟩

/-- C8 (amended): for every active service the public JSON history endpoint
returns the service's name plus at most its 10 most recent updates,
most-recent-first, each serialized with the keys `status` (holding the
human-readable display label), `status_code` (the stored code), `problem`,
`plan`, `created_at` and `created_by`; a missing or inactive service is not
served. -/
theorem service_history_json_spec (db : Db) (sid : Nat) (name : String)
    (entries : List (List (String × JVal)))
    (h : service_history_json db sid = .ok (name, entries)) :
    (∃ s ∈ db.services, s.id = sid ∧ s.is_active = true ∧ name = s.name) ∧
    (∃ us, us = (order_by_created_at_desc (service_updates db sid)).take 10 ∧
      entries = us.map history_entry ∧
      List.Pairwise (fun a b => b.created_at ≤ a.created_at) us ∧
      ∀ u ∈ us, history_entry u =
        [("status", .str (get_status_display u.status)),
         ("status_code", .str u.status),
         ("problem", .str u.problem),
         ("plan", .str u.plan),
         ("created_at", .time u.created_at),
         ("created_by", match u.created_by with | some n => .str n | none => .null)]) ∧
    entries.length ≤ 10 := by
  unfold service_history_json at h
  cases hfind : db.services.find? (fun s => s.id == sid && s.is_active) with
  | none => rw [hfind] at h; simp at h
  | some s =>
    rw [hfind] at h
    have hmem : s ∈ db.services := List.mem_of_find?_eq_some hfind
    have hprop := List.find?_some hfind
    simp only [Bool.and_eq_true, beq_iff_eq] at hprop
    have hid : s.id = sid := hprop.1
    have hact : s.is_active = true := hprop.2
    simp only [Except.ok.injEq, Prod.mk.injEq] at h
    have hname : name = s.name := h.1.symm
    have hentries : entries =
        ((order_by_created_at_desc (service_updates db sid)).take 10).map
          history_entry := h.2.symm
    refine ⟨⟨s, hmem, hid, hact, hname⟩,
      ⟨(order_by_created_at_desc (service_updates db sid)).take 10, rfl,
        hentries, ?_, fun u _ => rfl⟩, ?_⟩
    · exact List.Pairwise.sublist (List.take_sublist 10 _)
        (pairwise_order_by_created_at_desc (service_updates db sid))
    · rw [hentries, List.length_map, List.length_take]
      exact min_le_left _ _

/-- Witness for C8 (amended) at the concrete database: the service-2 history
response carries at most 10 entries. -/
theorem service_history_json_spec_witness :
    ([history_entry exUpd2] : List (List (String × JVal))).length ≤ 10 :=
  (service_history_json_spec exDb2 2 "Service 2" [history_entry exUpd2] rfl).2.2

end RialtasStatus
